import Mathlib

/-!
Verification of the daily-rotation fantasy football blogs API (`app.py`).

The file shallowly embeds the program: JSON documents become an inductive
`Json` type, the module-level loader `load_blogs_from_json` becomes a pure
function from a parsed document to the resulting global state, the
rotation selector `get_daily_blogs` and the route handlers become pure
functions of the catalog and of the current instant (seconds relative to
the fixed epoch 2025-01-01T00:00:00 UTC).  Operations that can raise an
uncaught exception in Python return `Option` (`none` = exception).
-/

set_option autoImplicit false

namespace FantasyBlog

/-- Shallow embedding of the JSON-derived Python values the app manipulates
(integers stand in for JSON numbers; the app's data file carries integer
counts only). -/
inductive Json where
  | null
  | bool (b : Bool)
  | num (n : Int)
  | str (s : String)
  | arr (elems : List Json)
  | obj (fields : List (String × Json))

/-- Python truthiness of a value, as used by `if player_name:` and
`if not ALL_BLOGS:`. -/
def truthy : Json → Bool
  | .null => false
  | .bool b => b
  | .num n => n != 0
  | .str s => s != ""
  | .arr l => !l.isEmpty
  | .obj f => !f.isEmpty

/-- Python hashability: lists and dicts cannot be dictionary keys. -/
def hashable : Json → Bool
  | .arr _ => false
  | .obj _ => false
  | _ => true

/-- Lookup in a string-keyed dictionary (a parsed JSON object). -/
def alookup : List (String × Json) → String → Option Json
  | [], _ => none
  | (k, v) :: rest, key => if k = key then some v else alookup rest key

/-- Python `==` on the scalar values that can appear as dictionary keys
(`True == 1` and `False == 0` in Python).  Compound values are unhashable
and never become keys, so their comparison is never reached. -/
def pyKeyEq : Json → Json → Bool
  | .null, .null => true
  | .bool a, .bool b => a == b
  | .bool a, .num n => (if a then (1 : Int) else 0) == n
  | .num n, .bool b => n == (if b then (1 : Int) else 0)
  | .num a, .num b => a == b
  | .str a, .str b => a == b
  | _, _ => false

/-- Lookup in a Python dict keyed by scalar values (`BLOGS_DATA`). -/
def jlookup : List (Json × Json) → Json → Option Json
  | [], _ => none
  | (k, v) :: rest, key => if pyKeyEq k key then some v else jlookup rest key

/-- Insertion into a Python dict: when the key is already present the value
is updated in place (the original key object and the insertion order are
kept); otherwise the pair is appended. -/
def dictInsert (m : List (Json × Json)) (k v : Json) : List (Json × Json) :=
  if m.any (fun p => pyKeyEq p.1 k) then
    m.map (fun p => if pyKeyEq p.1 k then (p.1, v) else p)
  else m ++ [(k, v)]

/-- Python `blog.get(key, default)`: `none` models the `AttributeError`
raised when `blog` is not a dict; an absent key yields the default. -/
def pyGet (b : Json) (key : String) (dflt : Json) : Option Json :=
  match b with
  | .obj f => some ((alookup f key).getD dflt)
  | _ => none

/-- Python `blog[key]` subscription: `none` models both the `KeyError` on
an absent key and the `TypeError` on a non-dict value. -/
def pyIndex (b : Json) (key : String) : Option Json :=
  match b with
  | .obj f => alookup f key
  | _ => none

/-- Python `str.lower()` (character-wise; the catalog's names are basic
Latin, where Python's and Lean's per-character lowercasing agree). -/
def strLower (s : String) : String :=
  String.mk (s.data.map Char.toLower)

/-! ## Catalog loader (`load_blogs_from_json`, app.py lines 137-185) -/

/-- Which value app.py lines 151-159 assign to `ALL_BLOGS`: `data['blogs']`
when `data` is a dict containing the key `'blogs'`, `data` itself when it
is a list, and `none` for the `else` branch that reports an unexpected
structure and returns `False` without assigning. -/
def shapeSelect : Json → Option Json
  | .obj fields => alookup fields "blogs"
  | .arr l => some (.arr l)
  | _ => none

/-- Python iteration (`for blog in ALL_BLOGS:`): lists yield their
elements, strings yield their characters as 1-character strings, dicts
yield their keys; every other value raises `TypeError` (`none`). -/
def iterElems : Json → Option (List Json)
  | .arr l => some l
  | .str s => some (s.data.map (fun c => .str (String.singleton c)))
  | .obj fields => some (fields.map (fun p => .str p.1))
  | _ => none

/-- The indexing loop of app.py lines 162-165: each record's
`player_name` is fetched with `.get` and, when truthy, the record is
inserted into `BLOGS_DATA` under it.  The `Bool` is `false` when an
exception interrupts the loop (`.get` on a non-dict element, or an
unhashable key); the partially filled dict is kept, exactly as the
mutated Python global is. -/
def indexBlogs : List Json → List (Json × Json) → Bool × List (Json × Json)
  | [], m => (true, m)
  | b :: rest, m =>
    match pyGet b "player_name" .null with
    | none => (false, m)
    | some name =>
      if truthy name then
        if hashable name then indexBlogs rest (dictInsert m name b)
        else (false, m)
      else indexBlogs rest m

/-- The module-level state `load_blogs_from_json` leaves behind:
the returned flag, `ALL_BLOGS`, and `BLOGS_DATA`.  The initial state has
`ALL_BLOGS = []` and `BLOGS_DATA = {}`. -/
structure LoadState where
  success : Bool
  allBlogs : Json
  blogsData : List (Json × Json)

/-- `load_blogs_from_json` applied to an already parsed document, starting
from the initial module state.  Exceptions raised inside the `try` block
are caught and turn into `success = false`, but assignments to the globals
made before the exception persist. -/
def load_blogs_from_json (data : Json) : LoadState :=
  match shapeSelect data with
  | none => ⟨false, .arr [], []⟩
  | some v =>
    match iterElems v with
    | none => ⟨false, v, []⟩
    | some elems =>
      let r := indexBlogs elems []
      ⟨r.1, v, r.2⟩

/-- The whole load including file-level failures: `none` models a missing,
unreadable, or syntactically malformed JSON file (`os.path.exists` false,
or `open`/`json.load` raising before anything is assigned). -/
def loadFromFile (doc : Option Json) : LoadState :=
  match doc with
  | none => ⟨false, .arr [], []⟩
  | some data => load_blogs_from_json data

/-! ## Rotation selector (`get_daily_blogs`, app.py lines 15-34) -/

/-- `(today - start_date).days` for an instant `t` given in seconds
relative to the epoch 2025-01-01T00:00:00 UTC: Python's `timedelta.days`
floors, which is `Int.fdiv`. -/
def elapsedDays (t : Int) : Int :=
  Int.fdiv t 86400

/-- `day_in_cycle = days_since_start % 7`; Python `%` on integers is
`Int.emod` (result has the sign of the divisor). -/
def cyclePos (t : Int) : Int :=
  Int.emod (elapsedDays t) 7

/-- The slice `ALL_BLOGS[start_index:end_index]` of app.py lines 30-34 for
a given day in the cycle, including the early `return []` on an empty
catalog: `end_index = min(start_index + 5, len)` makes the slice
`drop (day*5) |>.take 5`. -/
def dailyWindow (allBlogs : List Json) (day : Nat) : List Json :=
  if allBlogs.isEmpty then []
  else (allBlogs.drop (day * 5)).take 5

/-- `get_daily_blogs()` as a function of the catalog and the instant. -/
def get_daily_blogs (allBlogs : List Json) (t : Int) : List Json :=
  dailyWindow allBlogs (cyclePos t).toNat

/-! ## Route handlers -/

/-- Result of `GET /api/blogs/<player_name>` (app.py lines 93-111):
the record, the distinguishing 404 carrying today's player names, the
plain 404, or an uncaught exception. -/
inductive LookupResult where
  | found (blog : Json)
  | notToday (todaysPlayers : List Json)
  | notFound
  | error

/-- `blog['player_name'].lower()`: `none` models the `KeyError` /
`TypeError` of the subscription as well as the `AttributeError` of
`.lower()` on a non-string value. -/
def pnameLower (b : Json) : Option String :=
  match pyIndex b "player_name" with
  | some (.str s) => some (strLower s)
  | _ => none

/-- The window loop of app.py lines 99-101: first record whose lowercased
name equals the lowercased query; `none` models an exception, `some none`
no match. -/
def scanWindow (q : String) : List Json → Option (Option Json)
  | [] => some none
  | b :: rest =>
    match pnameLower b with
    | none => none
    | some s => if s = q then some (some b) else scanWindow q rest

/-- The short-circuiting `any(...)` over `ALL_BLOGS` of app.py line 104. -/
def scanAny (q : String) : List Json → Option Bool
  | [] => some false
  | b :: rest =>
    match pnameLower b with
    | none => none
    | some s => if s = q then some true else scanAny q rest

/-- The comprehension `[blog['player_name'] for blog in daily_blogs]`
(app.py lines 53 and 108); `none` models its exception on a record
without the key. -/
def windowNames : List Json → Option (List Json)
  | [] => some []
  | b :: rest =>
    match pyIndex b "player_name" with
    | none => none
    | some n =>
      match windowNames rest with
      | none => none
      | some ns => some (n :: ns)

/-- `get_player_blog` (app.py lines 93-111) as a function of the catalog,
the instant, and the queried name. -/
def get_player_blog (allBlogs : List Json) (t : Int) (q : String) : LookupResult :=
  match scanWindow (strLower q) (get_daily_blogs allBlogs t) with
  | none => .error
  | some (some b) => .found b
  | some none =>
    match scanAny (strLower q) allBlogs with
    | none => .error
    | some true =>
      match windowNames (get_daily_blogs allBlogs t) with
      | some names => .notToday names
      | none => .error
    | some false => .notFound

/-- The data-dependent fields of the `GET /` response (app.py lines
36-66).  The constant strings, the ISO date, and the `debug_info` block
(which reads the process environment via `os.getcwd`/`os.listdir`) are
not modeled. -/
structure HomeResponse where
  total_blogs_in_system : Nat
  blogs_showing_today : Nat
  current_day_in_cycle : Int
  blogs_range : String
  todays_players : List Json

/-- The `home` handler; `none` models the exception raised by the
`todays_players` comprehension on a window record without a
`player_name` key. -/
def home (allBlogs : List Json) (t : Int) : Option HomeResponse :=
  match windowNames (get_daily_blogs allBlogs t) with
  | none => none
  | some names =>
    some
      { total_blogs_in_system := allBlogs.length
        blogs_showing_today := (get_daily_blogs allBlogs t).length
        current_day_in_cycle := cyclePos t + 1
        blogs_range :=
          if (get_daily_blogs allBlogs t).isEmpty then "None"
          else
            toString ((cyclePos t).toNat * 5 + 1) ++ "-" ++
              toString (min (((cyclePos t).toNat + 1) * 5) allBlogs.length)
        todays_players := names }

/-- Python `sum` step: adding a JSON-derived value to an integer
accumulator; booleans coerce to 0/1, anything else raises `TypeError`. -/
def pyAdd (acc : Int) : Json → Option Int
  | .num n => some (acc + n)
  | .bool b => some (acc + if b then 1 else 0)
  | _ => none

/-- `sum(blog.get('word_count', 0) for blog in l)`. -/
def sumWordCounts : List Json → Int → Option Int
  | [], acc => some acc
  | b :: rest, acc =>
    match pyGet b "word_count" (.num 0) with
    | none => none
    | some w =>
      match pyAdd acc w with
      | none => none
      | some acc2 => sumWordCounts rest acc2

/-- `positions[pos] = positions.get(pos, 0) + 1`; `none` models the
`TypeError` on an unhashable position value. -/
def dictIncr (m : List (Json × Int)) (k : Json) : Option (List (Json × Int)) :=
  if hashable k then
    some
      (if m.any (fun p => pyKeyEq p.1 k) then
        m.map (fun p => if pyKeyEq p.1 k then (p.1, p.2 + 1) else p)
      else m ++ [(k, 1)])
  else none

/-- The per-position counting loop of app.py lines 123-126. -/
def countPositions : List Json → List (Json × Int) → Option (List (Json × Int))
  | [], m => some m
  | b :: rest, m =>
    match pyGet b "position" (.str "Unknown") with
    | none => none
    | some pos =>
      match dictIncr m pos with
      | none => none
      | some m2 => countPositions rest m2

/-- The data-dependent fields of the `GET /api/stats` response: the
short-circuit answer for an empty catalog, or the full statistics. -/
inductive StatsResponse where
  | empty (total_blogs : Nat) (message : String)
  | full (total_blogs blogs_showing_today : Nat) (total_words words_today : Int)
      (positions : List (Json × Int))

/-- `get_stats` (app.py lines 113-135) as a function of the catalog and
the instant; `none` models an uncaught exception while summing or
grouping. -/
def get_stats (allBlogs : List Json) (t : Int) : Option StatsResponse :=
  if allBlogs.isEmpty then some (.empty 0 "No blogs loaded")
  else
    match sumWordCounts allBlogs 0 with
    | none => none
    | some tw =>
      match sumWordCounts (get_daily_blogs allBlogs t) 0 with
      | none => none
      | some dw =>
        match countPositions allBlogs [] with
        | none => none
        | some pos =>
          some (.full allBlogs.length (get_daily_blogs allBlogs t).length tw dw pos)

/-! ## Spec-side definitions used by refinement-style claims -/

/-- Modelled from the spec's words, for comparison with the code: a record
is a JSON object (the data model's `BlogRecord`). -/
def isRecord : Json → Bool
  | .obj _ => true
  | _ => false

/-- Modelled from the spec's words, for comparison with the code: the
accepted input shapes are an object whose `blogs` field is a sequence of
records, or a bare sequence of records. -/
def acceptedShape : Json → Bool
  | .obj fields =>
    match alookup fields "blogs" with
    | some (.arr l) => l.all isRecord
    | _ => false
  | .arr l => l.all isRecord
  | _ => false

/-- A record the indexing loop traverses without raising: a dict whose
`player_name` is either falsy or hashable. -/
def recordOk : Json → Bool
  | .obj f =>
    !truthy ((alookup f "player_name").getD .null)
      || hashable ((alookup f "player_name").getD .null)
  | _ => false

/-- Direct characterization of the documents `load_blogs_from_json`
reports success on (proved equivalent to the code below): the selected
`blogs` value must iterate without error, which a list of well-behaved
records does, but so do the degenerate empty string and empty dict. -/
def loadSucceeds : Json → Bool
  | .obj fields =>
    (match alookup fields "blogs" with
     | some (.arr l) => l.all recordOk
     | some (.str s) => s.data.isEmpty
     | some (.obj f) => f.isEmpty
     | some _ => false
     | none => false)
  | .arr l => l.all recordOk
  | _ => false

/-- A record (given by its field list) that the loader indexes: its
`player_name` is truthy. -/
def namedB (f : List (String × Json)) : Bool :=
  truthy ((alookup f "player_name").getD .null)

/-- A record (given by its field list) whose `player_name` is exactly the
string `n`. -/
def nameIs (n : String) (f : List (String × Json)) : Bool :=
  match alookup f "player_name" with
  | some (.str s) => s == n
  | _ => false

/-! ## Helper lemmas -/

theorem dailyWindow_length (l : List Json) (day : Nat) :
    (dailyWindow l day).length = min 5 (l.length - day * 5) := by
  unfold dailyWindow
  by_cases h : l.isEmpty = true
  · rw [if_pos h, List.isEmpty_iff.mp h]
    simp
  · rw [if_neg h, List.length_take, List.length_drop]

theorem dailyWindow_eq_nil_iff (l : List Json) (day : Nat) :
    dailyWindow l day = [] ↔ l.length ≤ day * 5 := by
  constructor
  · intro h
    have := dailyWindow_length l day
    rw [h] at this
    simp at this
    omega
  · intro h
    unfold dailyWindow
    by_cases he : l.isEmpty = true
    · rw [if_pos he]
    · rw [if_neg he, List.drop_eq_nil_of_le h]
      rfl

theorem mem_of_mem_dailyWindow {b : Json} {l : List Json} {day : Nat}
    (h : b ∈ dailyWindow l day) : b ∈ l := by
  unfold dailyWindow at h
  by_cases he : l.isEmpty = true
  · rw [if_pos he] at h
    simp at h
  · rw [if_neg he] at h
    exact List.drop_subset _ _ (List.take_subset _ _ h)

/-! ## C3: the active window is the slice `[day*5, min(day*5+5, N))` -/

/-- C3: for every catalog and cycle position, the active window is the
contiguous slice `[day*5, min(day*5+5, N))` of the ordered catalog, its
length equals `min 5 (N - day*5)` (truncated subtraction playing the role
of `max 0`), and it is empty whenever `day*5 ≥ N`. -/
theorem dailyWindow_slice (l : List Json) (day : Nat) :
    dailyWindow l day = (l.take (min (day * 5 + 5) l.length)).drop (day * 5) ∧
      (dailyWindow l day).length = min 5 (l.length - day * 5) ∧
      (l.length ≤ day * 5 → dailyWindow l day = []) := by
  refine ⟨?_, dailyWindow_length l day, fun h => (dailyWindow_eq_nil_iff l day).mpr h⟩
  unfold dailyWindow
  by_cases h : l.isEmpty = true
  · rw [if_pos h, List.isEmpty_iff.mp h]
    simp
  · rw [if_neg h, List.drop_take]
    rw [List.take_eq_take]
    rw [List.length_drop]
    omega

theorem dailyWindow_slice_witness :
    dailyWindow [Json.obj [("player_name", Json.str "P1")]] 2 = [] :=
  (dailyWindow_slice [Json.obj [("player_name", Json.str "P1")]] 2).2.2 (by decide)

/-! ## C4: the cycle position -/

/-- C4: `cyclePosition` is the whole number of days elapsed since the
fixed epoch 2025-01-01T00:00:00 UTC taken modulo 7, always lies in
`[0, 6]`, and is a pure function of the current date: instants with the
same whole-day count give the same value. -/
theorem cyclePos_bounds (t : Int) :
    0 ≤ cyclePos t ∧ cyclePos t ≤ 6 ∧
      ∀ t2 : Int, elapsedDays t2 = elapsedDays t → cyclePos t2 = cyclePos t := by
  refine ⟨?_, ?_, ?_⟩
  · show (0 : Int) ≤ elapsedDays t % 7
    omega
  · show elapsedDays t % 7 ≤ 6
    omega
  · intro t2 h
    unfold cyclePos
    rw [h]

theorem cyclePos_bounds_witness :
    0 ≤ cyclePos 950400 ∧ cyclePos 950400 ≤ 6 ∧ cyclePos 1000000 = cyclePos 950400 :=
  ⟨(cyclePos_bounds 950400).1, (cyclePos_bounds 950400).2.1,
    (cyclePos_bounds 950400).2.2 1000000 rfl⟩

/-! ## C7: stats on an empty catalog -/

/-- C7: on an empty catalog the stats endpoint does not raise and answers
with the "No blogs loaded" message and a zero total, and the active
window is empty. -/
theorem get_stats_empty (t : Int) :
    get_stats [] t = some (.empty 0 "No blogs loaded") ∧ get_daily_blogs [] t = [] :=
  ⟨rfl, rfl⟩

/-! ## C8: same-day determinism of the rotation -/

/-- C8: the rotation computation is a pure function of the catalog and the
instant, and two instants with the same whole-day count since the epoch
(the same UTC calendar day) select the same active window. -/
theorem get_daily_blogs_same_day (l : List Json) (t1 t2 : Int)
    (h : elapsedDays t1 = elapsedDays t2) :
    get_daily_blogs l t1 = get_daily_blogs l t2 := by
  unfold get_daily_blogs cyclePos
  rw [h]

theorem get_daily_blogs_same_day_witness :
    get_daily_blogs [Json.obj [("player_name", Json.str "P1")]] 100
      = get_daily_blogs [Json.obj [("player_name", Json.str "P1")]] 5000 :=
  get_daily_blogs_same_day [Json.obj [("player_name", Json.str "P1")]] 100 5000 rfl

/-! ## C1: how the name index is keyed -/

/-- C1 is refuted on the code: after loading a catalog with the single
record `{"player_name": "Alice"}` the name index holds the record under
the original-case key `"Alice"` (app.py line 165 inserts
`BLOGS_DATA[player_name]` without lowercasing), and a lookup under the
lowercase-normalized key `"alice"` finds nothing. -/
theorem blogsData_key_not_lowercased :
    (load_blogs_from_json (.arr [.obj [("player_name", .str "Alice")]])).success = true ∧
      (load_blogs_from_json (.arr [.obj [("player_name", .str "Alice")]])).blogsData
        = [(.str "Alice", .obj [("player_name", .str "Alice")])] ∧
      jlookup (load_blogs_from_json
          (.arr [.obj [("player_name", .str "Alice")]])).blogsData (.str "alice") = none :=
  ⟨rfl, rfl, rfl⟩

/-! ## C5: what a failed load leaves behind -/

/-- C5 is refuted on the code: for the document `{"blogs": 5}` — an
unexpected shape, since the `blogs` value is not a sequence — the load
fails (returns `False`) yet the catalog global has already been assigned
the value `5`, which is truthy, so the endpoints do not behave as if no
data were loaded (`len(ALL_BLOGS)` now raises). -/
theorem load_failure_keeps_assigned_catalog :
    (load_blogs_from_json (.obj [("blogs", .num 5)])).success = false ∧
      (load_blogs_from_json (.obj [("blogs", .num 5)])).allBlogs = .num 5 ∧
      truthy (load_blogs_from_json (.obj [("blogs", .num 5)])).allBlogs = true :=
  ⟨rfl, rfl, rfl⟩

/-- C5 (amended): every load failure detected before the catalog global is
assigned — a missing, unreadable, or malformed file (no parsed document),
or a parsed document that is neither a dict containing the key `blogs`
nor a list — is caught and leaves the catalog and the name index empty;
failures arising later, while iterating the selected value, keep the
already-assigned catalog (previous theorem). -/
theorem load_preassign_failure_empty (doc : Option Json)
    (h : ∀ d, doc = some d → shapeSelect d = none) :
    loadFromFile doc = ⟨false, .arr [], []⟩ := by
  cases doc with
  | none => rfl
  | some d =>
    have hd := h d rfl
    show load_blogs_from_json d = ⟨false, .arr [], []⟩
    unfold load_blogs_from_json
    rw [hd]

theorem load_preassign_failure_empty_witness :
    loadFromFile (some (.num 3)) = ⟨false, .arr [], []⟩ :=
  load_preassign_failure_empty (some (.num 3)) (by intro d hd; cases hd; rfl)

/-! ## C6: which documents the loader accepts -/

/-- C6 is refuted on the code: the document `{"blogs": {}}` is not one of
the spec's two accepted shapes (its `blogs` value is not a sequence of
records), yet the load succeeds, because the code only tests
`'blogs' in data` and the subsequent indexing loop iterates the empty
dict without error. -/
theorem load_accepts_unexpected_shape :
    acceptedShape (.obj [("blogs", .obj [])]) = false ∧
      (load_blogs_from_json (.obj [("blogs", .obj [])])).success = true :=
  ⟨rfl, rfl⟩

theorem indexBlogs_fst (elems : List Json) (m : List (Json × Json)) :
    (indexBlogs elems m).1 = elems.all recordOk := by
  induction elems generalizing m with
  | nil => rfl
  | cons b rest ih =>
    rw [List.all_cons]
    cases b with
    | obj f =>
      simp only [indexBlogs, pyGet, recordOk]
      by_cases ht : truthy ((alookup f "player_name").getD .null) = true
      · by_cases hh : hashable ((alookup f "player_name").getD .null) = true
        · rw [if_pos ht, if_pos hh, ih, ht, hh]
          simp
        · rw [if_pos ht, if_neg hh, ht]
          simp only [Bool.not_true, Bool.false_or]
          rw [Bool.eq_false_iff.mpr hh]
          simp
      · rw [if_neg ht, ih, Bool.eq_false_iff.mpr ht]
        simp
    | null => simp [indexBlogs, pyGet, recordOk]
    | bool b => simp [indexBlogs, pyGet, recordOk]
    | num n => simp [indexBlogs, pyGet, recordOk]
    | str s => simp [indexBlogs, pyGet, recordOk]
    | arr l => simp [indexBlogs, pyGet, recordOk]

/-- C6 (amended): the code's shape test only checks for a dict containing
the key `blogs` (whose value it takes unchecked) or a list; documents of
any other top-level shape fail with nothing assigned.  Once a value is
selected it is assigned to the catalog unconditionally, and the load then
succeeds exactly when that value iterates without error: a list of
records with falsy-or-hashable names, or a degenerate empty string or
empty dict. -/
theorem load_success_characterization (data : Json) :
    (load_blogs_from_json data).success = loadSucceeds data ∧
      (match shapeSelect data with
       | none => load_blogs_from_json data = ⟨false, .arr [], []⟩
       | some v => (load_blogs_from_json data).allBlogs = v) := by
  have hsucc : ∀ v : Json, (load_blogs_from_json v).success = loadSucceeds v := by
    intro v
    cases v with
    | obj fields =>
      simp only [load_blogs_from_json, loadSucceeds, shapeSelect]
      cases hv : alookup fields "blogs" with
      | none => rfl
      | some w =>
        cases w with
        | arr l => simp [iterElems, indexBlogs_fst]
        | str s =>
          simp only [iterElems]
          rw [indexBlogs_fst]
          cases hs : s.data with
          | nil => simp [hs]
          | cons c cs => simp [hs, recordOk]
        | obj f =>
          simp only [iterElems]
          rw [indexBlogs_fst]
          cases f with
          | nil => simp
          | cons p ps => simp [recordOk]
        | null => rfl
        | bool b => rfl
        | num n => rfl
    | arr l =>
      simp only [load_blogs_from_json, loadSucceeds, shapeSelect, iterElems]
      rw [indexBlogs_fst]
    | null => rfl
    | bool b => rfl
    | num n => rfl
    | str s => rfl
  refine ⟨hsucc data, ?_⟩
  split
  next hv =>
    simp only [load_blogs_from_json, hv]
  next v hv =>
    simp only [load_blogs_from_json, hv]
    cases hi : iterElems v with
    | none => simp
    | some elems => simp [hi]

theorem dictInsert_fresh (m : List (Json × Json)) (k v : Json)
    (h : ∀ p ∈ m, pyKeyEq p.1 k = false) :
    dictInsert m k v = m ++ [(k, v)] := by
  unfold dictInsert
  rw [if_neg]
  intro hc
  rcases List.any_eq_true.mp hc with ⟨p, hp, hpk⟩
  rw [h p hp] at hpk
  exact Bool.false_ne_true hpk

theorem indexBlogs_unique (rs : List (List (String × Json))) (m : List (Json × Json))
    (hs : ∀ f ∈ rs,
      alookup f "player_name" = none ∨ ∃ s, alookup f "player_name" = some (.str s))
    (hfresh : ∀ f ∈ rs, namedB f = true →
      ∀ p ∈ m, pyKeyEq p.1 ((alookup f "player_name").getD .null) = false)
    (hnd : ((rs.filter namedB).map (fun f => alookup f "player_name")).Nodup) :
    indexBlogs (rs.map .obj) m
      = (true, m ++ (rs.filter namedB).map
          (fun f => ((alookup f "player_name").getD .null, .obj f))) := by
  induction rs generalizing m with
  | nil => simp [indexBlogs]
  | cons f rest ih =>
    simp only [List.map_cons, indexBlogs, pyGet]
    by_cases hn : namedB f = true
    · -- the head record is indexed
      rcases hs f (List.mem_cons_self f rest) with h0 | ⟨s, hstr⟩
      · exfalso
        unfold namedB at hn
        rw [h0] at hn
        exact Bool.false_ne_true hn
      · have hname : (alookup f "player_name").getD .null = .str s := by rw [hstr]; rfl
        have htr : truthy ((alookup f "player_name").getD .null) = true := hn
        rw [if_pos htr, hname]
        rw [show hashable (Json.str s) = true from rfl]
        simp only [if_pos]
        have hins : dictInsert m (.str s) (.obj f) = m ++ [(.str s, .obj f)] := by
          apply dictInsert_fresh
          intro p hp
          have := hfresh f (List.mem_cons_self f rest) hn p hp
          rwa [hname] at this
        rw [hins]
        rw [List.filter_cons, if_pos hn] at hnd ⊢
        rw [List.map_cons, List.nodup_cons] at hnd
        have hfresh2 : ∀ g ∈ rest, namedB g = true →
            ∀ p ∈ m ++ [(Json.str s, Json.obj f)],
              pyKeyEq p.1 ((alookup g "player_name").getD .null) = false := by
          intro g hg hgname p hp
          rcases List.mem_append.mp hp with hpm | hpnew
          · exact hfresh g (List.mem_cons_of_mem f hg) hgname p hpm
          · rcases hs g (List.mem_cons_of_mem f hg) with hg0 | ⟨s2, hgstr⟩
            · exfalso
              unfold namedB at hgname
              rw [hg0] at hgname
              exact Bool.false_ne_true hgname
            · have hpeq : p = (.str s, .obj f) := List.mem_singleton.mp hpnew
              rw [hpeq, hgstr]
              show pyKeyEq (.str s) (.str s2) = false
              have hne : ¬ alookup f "player_name" = alookup g "player_name" := by
                intro heq
                exact hnd.1 (heq ▸ List.mem_map_of_mem _
                  (List.mem_filter.mpr ⟨hg, hgname⟩))
              have hsne : s ≠ s2 := by
                intro hss
                exact hne (by rw [hstr, hgstr, hss])
              simp [pyKeyEq, hsne]
        rw [ih (m ++ [(Json.str s, Json.obj f)])
          (fun g hg => hs g (List.mem_cons_of_mem f hg)) hfresh2 hnd.2]
        rw [List.map_cons, hname]
        simp [List.append_assoc]
    · -- falsy (or absent) name: the record is skipped
      have htr : truthy ((alookup f "player_name").getD .null) = false :=
        Bool.eq_false_iff.mpr hn
      rw [if_neg (by rw [htr]; exact Bool.false_ne_true)]
      rw [List.filter_cons, if_neg hn] at hnd ⊢
      exact ih m (fun g hg => hs g (List.mem_cons_of_mem f hg))
        (fun g hg hgn p hp => hfresh g (List.mem_cons_of_mem f hg) hgn p hp) hnd

theorem eq_str_of_pyKeyEq {x : Json} {n : String} (h : pyKeyEq x (.str n) = true) :
    x = Json.str n := by
  cases x <;> simp_all [pyKeyEq]

theorem jlookup_map_update_self (m : List (Json × Json)) (s : String) (v : Json)
    (ha : m.any (fun p => pyKeyEq p.1 (.str s)) = true) :
    jlookup (m.map (fun p => if pyKeyEq p.1 (.str s) then (p.1, v) else p)) (.str s)
      = some v := by
  induction m with
  | nil => simp at ha
  | cons p rest ih =>
    obtain ⟨k, w⟩ := p
    show jlookup ((if pyKeyEq k (Json.str s) = true then (k, v) else (k, w))
        :: rest.map (fun p => if pyKeyEq p.1 (.str s) then (p.1, v) else p))
        (Json.str s) = some v
    by_cases hk : pyKeyEq k (.str s) = true
    · rw [if_pos hk]
      simp only [jlookup]
      rw [if_pos hk]
    · have ha2 : rest.any (fun p => pyKeyEq p.1 (.str s)) = true := by
        rw [List.any_cons] at ha
        rcases Bool.or_eq_true_iff.mp ha with h1 | h2
        · exact absurd h1 hk
        · exact h2
      rw [if_neg hk]
      simp only [jlookup]
      rw [if_neg hk]
      exact ih ha2

theorem jlookup_append_self (m : List (Json × Json)) (s : String) (v : Json)
    (ha : m.any (fun p => pyKeyEq p.1 (.str s)) = false) :
    jlookup (m ++ [(Json.str s, v)]) (.str s) = some v := by
  induction m with
  | nil =>
    show jlookup [(Json.str s, v)] (.str s) = some v
    simp [jlookup, pyKeyEq]
  | cons p rest ih =>
    obtain ⟨k, w⟩ := p
    rw [List.any_cons] at ha
    obtain ⟨h1, h2⟩ := Bool.or_eq_false_iff.mp ha
    simp only [List.cons_append, jlookup]
    rw [if_neg (by rw [h1]; exact Bool.false_ne_true)]
    exact ih h2

theorem jlookup_map_update_other (m : List (Json × Json)) (s n : String) (v : Json)
    (hne : ¬ s = n) :
    jlookup (m.map (fun p => if pyKeyEq p.1 (.str s) then (p.1, v) else p)) (.str n)
      = jlookup m (.str n) := by
  induction m with
  | nil => rfl
  | cons p rest ih =>
    obtain ⟨k, w⟩ := p
    show jlookup ((if pyKeyEq k (Json.str s) = true then (k, v) else (k, w))
        :: rest.map (fun p => if pyKeyEq p.1 (.str s) then (p.1, v) else p))
        (Json.str n) = jlookup ((k, w) :: rest) (Json.str n)
    by_cases hk : pyKeyEq k (.str s) = true
    · have hks : k = Json.str s := eq_str_of_pyKeyEq hk
      have hkn : pyKeyEq k (.str n) = false := by
        rw [hks]
        show (s == n) = false
        exact beq_eq_false_iff_ne.mpr hne
      rw [if_pos hk]
      simp only [jlookup]
      rw [if_neg (by rw [hkn]; exact Bool.false_ne_true),
        if_neg (by rw [hkn]; exact Bool.false_ne_true)]
      exact ih
    · rw [if_neg hk]
      simp only [jlookup]
      by_cases hkn : pyKeyEq k (.str n) = true
      · rw [if_pos hkn, if_pos hkn]
      · rw [if_neg hkn, if_neg hkn]
        exact ih

theorem jlookup_append_other (m : List (Json × Json)) (s n : String) (v : Json)
    (hne : ¬ s = n) :
    jlookup (m ++ [(Json.str s, v)]) (.str n) = jlookup m (.str n) := by
  induction m with
  | nil =>
    show jlookup [(Json.str s, v)] (.str n) = none
    have : pyKeyEq (Json.str s) (Json.str n) = false := beq_eq_false_iff_ne.mpr hne
    simp [jlookup, this]
  | cons p rest ih =>
    obtain ⟨k, w⟩ := p
    simp only [List.cons_append, jlookup]
    by_cases hk : pyKeyEq k (.str n) = true
    · rw [if_pos hk, if_pos hk]
    · rw [if_neg hk, if_neg hk]
      exact ih

theorem jlookup_dictInsert_self (m : List (Json × Json)) (s : String) (v : Json) :
    jlookup (dictInsert m (.str s) v) (.str s) = some v := by
  unfold dictInsert
  by_cases ha : m.any (fun p => pyKeyEq p.1 (.str s)) = true
  · rw [if_pos ha]
    exact jlookup_map_update_self m s v ha
  · rw [if_neg ha]
    exact jlookup_append_self m s v (Bool.eq_false_iff.mpr ha)

theorem jlookup_dictInsert_other (m : List (Json × Json)) (s n : String) (v : Json)
    (hne : ¬ s = n) :
    jlookup (dictInsert m (.str s) v) (.str n) = jlookup m (.str n) := by
  unfold dictInsert
  by_cases ha : m.any (fun p => pyKeyEq p.1 (.str s)) = true
  · rw [if_pos ha]
    exact jlookup_map_update_other m s n v hne
  · rw [if_neg ha]
    exact jlookup_append_other m s n v hne

theorem jlookup_indexBlogs (rs : List (List (String × Json))) (m : List (Json × Json))
    (hs : ∀ f ∈ rs,
      alookup f "player_name" = none ∨ ∃ s, alookup f "player_name" = some (.str s))
    (n : String) (hn : ¬ n = "") :
    jlookup (indexBlogs (rs.map .obj) m).2 (.str n)
      = match (rs.filter (nameIs n)).getLast? with
        | some f => some (.obj f)
        | none => jlookup m (.str n) := by
  induction rs generalizing m with
  | nil => rfl
  | cons f rest ih =>
    have hrest : ∀ g ∈ rest,
        alookup g "player_name" = none ∨ ∃ s, alookup g "player_name" = some (.str s) :=
      fun g hg => hs g (List.mem_cons_of_mem f hg)
    rcases hs f (List.mem_cons_self f rest) with h0 | ⟨s, hstr⟩
    · -- no `player_name` key: skipped, and it cannot bear the name `n`
      have hni : nameIs n f = false := by simp [nameIs, h0]
      have hred : indexBlogs (.obj f :: rest.map .obj) m = indexBlogs (rest.map .obj) m := by
        simp [indexBlogs, pyGet, h0, truthy]
      rw [List.map_cons, hred, List.filter_cons, if_neg (by simp [hni])]
      exact ih m hrest
    · by_cases hse : s = ""
      · -- empty-string name: falsy, skipped; `n ≠ ""` so it does not bear `n`
        subst hse
        have hni : nameIs n f = false := by
          unfold nameIs
          rw [hstr]
          exact beq_eq_false_iff_ne.mpr (fun h => hn h.symm)
        have hred : indexBlogs (.obj f :: rest.map .obj) m
            = indexBlogs (rest.map .obj) m := by
          simp [indexBlogs, pyGet, hstr, truthy]
        rw [List.map_cons, hred, List.filter_cons, if_neg (by simp [hni])]
        exact ih m hrest
      · -- truthy string name: inserted under the key `.str s`
        have htr : truthy (Json.str s) = true := by simp [truthy, hse]
        have hred : indexBlogs (.obj f :: rest.map .obj) m
            = indexBlogs (rest.map .obj) (dictInsert m (.str s) (.obj f)) := by
          simp [indexBlogs, pyGet, hstr, htr, hashable]
        rw [List.map_cons, hred, ih (dictInsert m (.str s) (.obj f)) hrest]
        by_cases hsn : s = n
        · subst hsn
          have hni : nameIs s f = true := by
            unfold nameIs
            rw [hstr]
            simp
          rw [List.filter_cons, if_pos hni]
          cases hg : (rest.filter (nameIs s)).getLast? with
          | some g =>
            have hxne : rest.filter (nameIs s) ≠ [] := by
              intro hcon
              rw [hcon] at hg
              simp at hg
            obtain ⟨x, xs, hx⟩ := List.exists_cons_of_ne_nil hxne
            rw [hx] at hg ⊢
            rw [List.getLast?_cons_cons, hg]
          | none =>
            rw [List.getLast?_eq_none_iff.mp hg, List.getLast?_singleton]
            show jlookup (dictInsert m (Json.str s) (Json.obj f)) (Json.str s)
              = some (Json.obj f)
            exact jlookup_dictInsert_self m s (.obj f)
        · have hni : nameIs n f = false := by
            unfold nameIs
            rw [hstr]
            exact beq_eq_false_iff_ne.mpr hsn
          rw [List.filter_cons, if_neg (by simp [hni])]
          cases hg : (rest.filter (nameIs n)).getLast? with
          | some g => rfl
          | none =>
            show jlookup (dictInsert m (Json.str s) (Json.obj f)) (Json.str n)
              = jlookup m (Json.str n)
            exact jlookup_dictInsert_other m s n (.obj f) hsn

/-- C1 (amended): the name index holds exactly one entry for every record
with a truthy `player_name` — records without one are skipped, and when
several records share a name the later record overwrites the earlier one
— but each entry is keyed by the `player_name` exactly as written, with
no lowercase normalization: looking up any non-empty name returns the
last catalog record bearing exactly that (case-sensitive) name, and for
a catalog of records with pairwise distinct names the index lists
exactly the named records, in catalog order, under their original-case
names. -/
theorem blogsData_unique_names (rs : List (List (String × Json)))
    (hs : ∀ f ∈ rs,
      alookup f "player_name" = none ∨ ∃ s, alookup f "player_name" = some (.str s)) :
    (load_blogs_from_json (.arr (rs.map .obj))).success = true ∧
      (∀ n : String, ¬ n = "" →
        jlookup (load_blogs_from_json (.arr (rs.map .obj))).blogsData (.str n)
          = Option.map Json.obj ((rs.filter (nameIs n)).getLast?)) ∧
      (((rs.filter namedB).map (fun f => alookup f "player_name")).Nodup →
        (load_blogs_from_json (.arr (rs.map .obj))).blogsData
          = (rs.filter namedB).map
              (fun f => ((alookup f "player_name").getD .null, .obj f))) := by
  refine ⟨?_, ?_, ?_⟩
  · simp only [load_blogs_from_json, shapeSelect, iterElems]
    rw [indexBlogs_fst]
    refine List.all_eq_true.mpr ?_
    intro x hx
    obtain ⟨f, hf, rfl⟩ := List.mem_map.mp hx
    rcases hs f hf with h0 | ⟨s, hstr⟩
    · simp [recordOk, h0, truthy]
    · simp [recordOk, hstr, hashable]
  · intro n hn
    simp only [load_blogs_from_json, shapeSelect, iterElems]
    have h := jlookup_indexBlogs rs [] hs n hn
    cases hg : (rs.filter (nameIs n)).getLast? with
    | some g =>
      rw [hg] at h
      rw [h]
      rfl
    | none =>
      rw [hg] at h
      rw [h]
      rfl
  · intro hnd
    have h := indexBlogs_unique rs [] hs (by intro f hf hx p hp; simp at hp) hnd
    simp only [load_blogs_from_json, shapeSelect, iterElems]
    rw [h]
    simp

theorem blogsData_unique_names_witness :
    (load_blogs_from_json (.arr [.obj [("player_name", .str "Alice"), ("v", .num 1)],
        .obj [("team", .str "X")],
        .obj [("player_name", .str "Alice"), ("v", .num 2)]])).success = true ∧
      jlookup (load_blogs_from_json
          (.arr [.obj [("player_name", .str "Alice"), ("v", .num 1)],
            .obj [("team", .str "X")],
            .obj [("player_name", .str "Alice"), ("v", .num 2)]])).blogsData
          (.str "Alice")
        = some (.obj [("player_name", .str "Alice"), ("v", .num 2)]) ∧
      (load_blogs_from_json (.arr [.obj [("player_name", .str "Alice")],
          .obj [("player_name", .str "Bob")]])).blogsData
        = [(.str "Alice", .obj [("player_name", .str "Alice")]),
           (.str "Bob", .obj [("player_name", .str "Bob")])] := by
  have hs0 : ∀ f ∈ [[("player_name", Json.str "Alice"), ("v", Json.num 1)],
      [("team", Json.str "X")], [("player_name", Json.str "Alice"), ("v", Json.num 2)]],
      alookup f "player_name" = none ∨ ∃ s, alookup f "player_name" = some (.str s) := by
    intro f hf
    simp only [List.mem_cons, List.not_mem_nil, or_false] at hf
    rcases hf with rfl | rfl | rfl
    · exact Or.inr ⟨"Alice", rfl⟩
    · exact Or.inl rfl
    · exact Or.inr ⟨"Alice", rfl⟩
  have hs1 : ∀ f ∈ [[("player_name", Json.str "Alice")], [("player_name", Json.str "Bob")]],
      alookup f "player_name" = none ∨ ∃ s, alookup f "player_name" = some (.str s) := by
    intro f hf
    simp only [List.mem_cons, List.not_mem_nil, or_false] at hf
    rcases hf with rfl | rfl
    · exact Or.inr ⟨"Alice", rfl⟩
    · exact Or.inr ⟨"Bob", rfl⟩
  refine ⟨(blogsData_unique_names _ hs0).1,
    (blogsData_unique_names _ hs0).2.1 "Alice" (by decide),
    (blogsData_unique_names _ hs1).2.2 ?_⟩
  show ([some (Json.str "Alice"), some (Json.str "Bob")] : List (Option Json)).Nodup
  refine List.nodup_cons.mpr ⟨?_, List.nodup_cons.mpr ⟨List.not_mem_nil _, List.nodup_nil⟩⟩
  intro hmem
  rcases List.mem_singleton.mp hmem with h
  have : "Alice" = "Bob" := by
    injection h with h2
    injection h2
  exact absurd this (by decide)

/-! ## Helper lemmas about the lookup scans -/

theorem mem_of_mem_get_daily_blogs {b : Json} {l : List Json} {t : Int}
    (h : b ∈ get_daily_blogs l t) : b ∈ l :=
  mem_of_mem_dailyWindow h

theorem pyIndex_isSome_of_str {b : Json}
    (h : ∃ s, pyIndex b "player_name" = some (Json.str s)) :
    (pyIndex b "player_name").isSome = true := by
  obtain ⟨s, hs⟩ := h
  simp [hs]

theorem pnameLower_isSome_of_str {b : Json}
    (h : ∃ s, pyIndex b "player_name" = some (Json.str s)) :
    (pnameLower b).isSome = true := by
  obtain ⟨s, hs⟩ := h
  simp [pnameLower, hs]

theorem scanWindow_isSome (q : String) (w : List Json)
    (h : ∀ b ∈ w, (pnameLower b).isSome = true) :
    (scanWindow q w).isSome = true := by
  induction w with
  | nil => rfl
  | cons b rest ih =>
    obtain ⟨s, hs⟩ := Option.isSome_iff_exists.mp (h b (List.mem_cons_self b rest))
    simp only [scanWindow, hs]
    by_cases hq : s = q
    · rw [if_pos hq]
      rfl
    · rw [if_neg hq]
      exact ih (fun b2 hb2 => h b2 (List.mem_cons_of_mem b hb2))

theorem scanWindow_no_match (q : String) (w : List Json)
    (h : ∀ b ∈ w, (pnameLower b).isSome = true)
    (hm : ∀ b ∈ w, ¬ pnameLower b = some q) :
    scanWindow q w = some none := by
  induction w with
  | nil => rfl
  | cons b rest ih =>
    obtain ⟨s, hs⟩ := Option.isSome_iff_exists.mp (h b (List.mem_cons_self b rest))
    simp only [scanWindow, hs]
    have hq : ¬ s = q := fun hq => hm b (List.mem_cons_self b rest) (by rw [hs, hq])
    rw [if_neg hq]
    exact ih (fun b2 hb2 => h b2 (List.mem_cons_of_mem b hb2))
      (fun b2 hb2 => hm b2 (List.mem_cons_of_mem b hb2))

theorem scanWindow_match (q : String) (w : List Json)
    (h : ∀ b ∈ w, (pnameLower b).isSome = true)
    (he : ∃ b ∈ w, pnameLower b = some q) :
    ∃ b ∈ w, scanWindow q w = some (some b) ∧ pnameLower b = some q := by
  induction w with
  | nil => simp at he
  | cons b rest ih =>
    obtain ⟨s, hs⟩ := Option.isSome_iff_exists.mp (h b (List.mem_cons_self b rest))
    by_cases hq : s = q
    · refine ⟨b, List.mem_cons_self b rest, ?_, by rw [hs, hq]⟩
      simp only [scanWindow, hs]
      rw [if_pos hq]
    · have he2 : ∃ b2 ∈ rest, pnameLower b2 = some q := by
        rcases he with ⟨b2, hb2, hp2⟩
        rcases List.mem_cons.mp hb2 with rfl | hmem
        · exfalso
          rw [hs] at hp2
          exact hq (Option.some.inj hp2)
        · exact ⟨b2, hmem, hp2⟩
      obtain ⟨b2, hb2, hsw, hp2⟩ :=
        ih (fun x hx => h x (List.mem_cons_of_mem b hx)) he2
      refine ⟨b2, List.mem_cons_of_mem b hb2, ?_, hp2⟩
      simp only [scanWindow, hs]
      rw [if_neg hq]
      exact hsw

theorem scanAny_isSome (q : String) (l : List Json)
    (h : ∀ b ∈ l, (pnameLower b).isSome = true) :
    (scanAny q l).isSome = true := by
  induction l with
  | nil => rfl
  | cons b rest ih =>
    obtain ⟨s, hs⟩ := Option.isSome_iff_exists.mp (h b (List.mem_cons_self b rest))
    simp only [scanAny, hs]
    by_cases hq : s = q
    · rw [if_pos hq]
      rfl
    · rw [if_neg hq]
      exact ih (fun b2 hb2 => h b2 (List.mem_cons_of_mem b hb2))

theorem scanAny_false (q : String) (l : List Json)
    (h : ∀ b ∈ l, (pnameLower b).isSome = true)
    (hm : ∀ b ∈ l, ¬ pnameLower b = some q) :
    scanAny q l = some false := by
  induction l with
  | nil => rfl
  | cons b rest ih =>
    obtain ⟨s, hs⟩ := Option.isSome_iff_exists.mp (h b (List.mem_cons_self b rest))
    simp only [scanAny, hs]
    have hq : ¬ s = q := fun hq => hm b (List.mem_cons_self b rest) (by rw [hs, hq])
    rw [if_neg hq]
    exact ih (fun b2 hb2 => h b2 (List.mem_cons_of_mem b hb2))
      (fun b2 hb2 => hm b2 (List.mem_cons_of_mem b hb2))

theorem scanAny_true (q : String) (l : List Json)
    (h : ∀ b ∈ l, (pnameLower b).isSome = true)
    (he : ∃ b ∈ l, pnameLower b = some q) :
    scanAny q l = some true := by
  induction l with
  | nil => simp at he
  | cons b rest ih =>
    obtain ⟨s, hs⟩ := Option.isSome_iff_exists.mp (h b (List.mem_cons_self b rest))
    simp only [scanAny, hs]
    by_cases hq : s = q
    · rw [if_pos hq]
    · rw [if_neg hq]
      have he2 : ∃ b2 ∈ rest, pnameLower b2 = some q := by
        rcases he with ⟨b2, hb2, hp2⟩
        rcases List.mem_cons.mp hb2 with rfl | hmem
        · exfalso
          rw [hs] at hp2
          exact hq (Option.some.inj hp2)
        · exact ⟨b2, hmem, hp2⟩
      exact ih (fun x hx => h x (List.mem_cons_of_mem b hx)) he2

theorem windowNames_isSome (w : List Json)
    (h : ∀ b ∈ w, (pyIndex b "player_name").isSome = true) :
    (windowNames w).isSome = true := by
  induction w with
  | nil => rfl
  | cons b rest ih =>
    obtain ⟨n, hn⟩ := Option.isSome_iff_exists.mp (h b (List.mem_cons_self b rest))
    obtain ⟨ns, hns⟩ := Option.isSome_iff_exists.mp
      (ih (fun x hx => h x (List.mem_cons_of_mem b hx)))
    simp [windowNames, hn, hns]

/-! ## C2: the three outcomes of the single-name lookup -/

/-- C2: for every queried name the lookup compares the lowercased query
against the active window only: a window match returns that record;
otherwise a case-insensitive match anywhere in the catalog yields the
distinguishing "not showing today" 404; otherwise the plain "not found"
404.  (Records are assumed well-formed, every catalog record carrying a
string `player_name` as the data model prescribes.) -/
theorem get_player_blog_cases (l : List Json) (t : Int) (q : String)
    (h : ∀ b ∈ l, ∃ s, pyIndex b "player_name" = some (Json.str s)) :
    ((∃ b ∈ get_daily_blogs l t, pnameLower b = some (strLower q)) →
        ∃ b ∈ get_daily_blogs l t,
          get_player_blog l t q = .found b ∧ pnameLower b = some (strLower q)) ∧
      ((∀ b ∈ get_daily_blogs l t, ¬ pnameLower b = some (strLower q)) →
        (∃ b ∈ l, pnameLower b = some (strLower q)) →
        ∃ names, get_player_blog l t q = .notToday names) ∧
      ((∀ b ∈ l, ¬ pnameLower b = some (strLower q)) →
        get_player_blog l t q = .notFound) := by
  have hw : ∀ b ∈ get_daily_blogs l t, (pnameLower b).isSome = true := fun b hb =>
    pnameLower_isSome_of_str (h b (mem_of_mem_get_daily_blogs hb))
  have hc : ∀ b ∈ l, (pnameLower b).isSome = true := fun b hb =>
    pnameLower_isSome_of_str (h b hb)
  refine ⟨?_, ?_, ?_⟩
  · intro he
    obtain ⟨b, hb, hsw, hp⟩ := scanWindow_match (strLower q) _ hw he
    refine ⟨b, hb, ?_, hp⟩
    unfold get_player_blog
    rw [hsw]
  · intro hnm hex
    have h1 := scanWindow_no_match (strLower q) _ hw hnm
    have h2 := scanAny_true (strLower q) l hc hex
    obtain ⟨ns, hns⟩ := Option.isSome_iff_exists.mp (windowNames_isSome _
      (fun b hb => pyIndex_isSome_of_str (h b (mem_of_mem_get_daily_blogs hb))))
    refine ⟨ns, ?_⟩
    unfold get_player_blog
    rw [h1, h2, hns]
  · intro hnone
    have h1 := scanWindow_no_match (strLower q) _ hw
      (fun b hb => hnone b (mem_of_mem_get_daily_blogs hb))
    have h2 := scanAny_false (strLower q) l hc hnone
    unfold get_player_blog
    rw [h1, h2]

theorem get_player_blog_cases_witness :
    ∃ b ∈ get_daily_blogs [Json.obj [("player_name", Json.str "Bob")]] 0,
      get_player_blog [Json.obj [("player_name", Json.str "Bob")]] 0 "BOB" = .found b ∧
        pnameLower b = some (strLower "BOB") :=
  (get_player_blog_cases [Json.obj [("player_name", Json.str "Bob")]] 0 "BOB"
      (by
        intro b hb
        have hb2 : b ∈ [Json.obj [("player_name", Json.str "Bob")]] := hb
        rcases List.mem_singleton.mp hb2 with rfl
        exact ⟨"Bob", rfl⟩)).1
    ⟨Json.obj [("player_name", Json.str "Bob")],
      List.mem_cons_self (Json.obj [("player_name", Json.str "Bob")]) [], rfl⟩

/-! ## C9: totality of the unguarded field accesses -/

/-- C9: the lookup and home handlers read `player_name` without a guard;
when every record of the active window carries the field the home handler
returns a response, and when every catalog record carries it (as a
string, as the data model prescribes) the lookup returns a response:
under these preconditions the raising branches are unreachable. -/
theorem handlers_total (l : List Json) (t : Int) (q : String) :
    ((∀ b ∈ get_daily_blogs l t, (pyIndex b "player_name").isSome = true) →
        (home l t).isSome = true) ∧
      ((∀ b ∈ l, ∃ s, pyIndex b "player_name" = some (Json.str s)) →
        ¬ get_player_blog l t q = LookupResult.error) := by
  constructor
  · intro hw
    obtain ⟨ns, hns⟩ := Option.isSome_iff_exists.mp (windowNames_isSome _ hw)
    unfold home
    rw [hns]
    rfl
  · intro h
    have hw : ∀ b ∈ get_daily_blogs l t, (pnameLower b).isSome = true := fun b hb =>
      pnameLower_isSome_of_str (h b (mem_of_mem_get_daily_blogs hb))
    have hc : ∀ b ∈ l, (pnameLower b).isSome = true := fun b hb =>
      pnameLower_isSome_of_str (h b hb)
    obtain ⟨o, ho⟩ := Option.isSome_iff_exists.mp (scanWindow_isSome (strLower q) _ hw)
    unfold get_player_blog
    rw [ho]
    cases o with
    | some b => simp
    | none =>
      obtain ⟨bv, hbv⟩ := Option.isSome_iff_exists.mp (scanAny_isSome (strLower q) l hc)
      rw [hbv]
      cases bv with
      | false => simp
      | true =>
        obtain ⟨ns, hns⟩ := Option.isSome_iff_exists.mp (windowNames_isSome _
          (fun b hb => pyIndex_isSome_of_str (h b (mem_of_mem_get_daily_blogs hb))))
        rw [hns]
        simp

theorem handlers_total_witness :
    (home [Json.obj [("player_name", Json.str "Al")]] 0).isSome = true ∧
      ¬ get_player_blog [Json.obj [("player_name", Json.str "Al")]] 0 "x"
          = LookupResult.error :=
  ⟨(handlers_total [Json.obj [("player_name", Json.str "Al")]] 0 "x").1
      (by
        intro b hb
        have hb2 : b ∈ [Json.obj [("player_name", Json.str "Al")]] := hb
        rcases List.mem_singleton.mp hb2 with rfl
        rfl),
    (handlers_total [Json.obj [("player_name", Json.str "Al")]] 0 "x").2
      (by
        intro b hb
        have hb2 : b ∈ [Json.obj [("player_name", Json.str "Al")]] := hb
        rcases List.mem_singleton.mp hb2 with rfl
        exact ⟨"Al", rfl⟩)⟩

/-! ## C10: the `blogs_range` field of the home response -/

theorem range_ne_none (a b : Nat) : ¬ (toString a ++ "-" ++ toString b = "None") := by
  intro h
  have hmem : '-' ∈ (toString a ++ "-" ++ toString b).data := by
    rw [String.data_append, String.data_append]
    refine List.mem_append.mpr (Or.inl (List.mem_append.mpr (Or.inr ?_)))
    rw [show ("-" : String).data = ['-'] from rfl]
    exact List.mem_singleton.mpr rfl
  rw [h] at hmem
  exact absurd hmem (by decide)

/-- C10: the home endpoint reports `blogs_range = "None"` exactly when the
active window is empty, which happens exactly when the catalog length is
at most `cyclePosition*5` (so also for non-empty catalogs shorter than
the current offset); otherwise it reports the 1-based range string from
`cyclePosition*5 + 1` to `min((cyclePosition+1)*5, N)`. -/
theorem home_blogs_range (l : List Json) (t : Int)
    (h : ∀ b ∈ get_daily_blogs l t, (pyIndex b "player_name").isSome = true) :
    ∃ r, home l t = some r ∧
      (r.blogs_range = "None" ↔ l.length ≤ (cyclePos t).toNat * 5) ∧
      (get_daily_blogs l t = [] ↔ l.length ≤ (cyclePos t).toNat * 5) ∧
      ((cyclePos t).toNat * 5 < l.length →
        r.blogs_range = toString ((cyclePos t).toNat * 5 + 1) ++ "-" ++
          toString (min (((cyclePos t).toNat + 1) * 5) l.length)) := by
  obtain ⟨ns, hns⟩ := Option.isSome_iff_exists.mp (windowNames_isSome _ h)
  have hwin : get_daily_blogs l t = [] ↔ l.length ≤ (cyclePos t).toNat * 5 :=
    dailyWindow_eq_nil_iff l ((cyclePos t).toNat)
  refine ⟨⟨l.length, (get_daily_blogs l t).length, cyclePos t + 1,
      (if (get_daily_blogs l t).isEmpty then "None"
       else toString ((cyclePos t).toNat * 5 + 1) ++ "-" ++
         toString (min (((cyclePos t).toNat + 1) * 5) l.length)), ns⟩,
    ?_, ?_, hwin, ?_⟩
  · unfold home
    rw [hns]
  · show (if (get_daily_blogs l t).isEmpty then "None"
        else toString ((cyclePos t).toNat * 5 + 1) ++ "-" ++
          toString (min (((cyclePos t).toNat + 1) * 5) l.length)) = "None"
      ↔ l.length ≤ (cyclePos t).toNat * 5
    by_cases he : (get_daily_blogs l t).isEmpty = true
    · rw [if_pos he]
      exact ⟨fun _ => hwin.mp (List.isEmpty_iff.mp he), fun _ => rfl⟩
    · rw [if_neg he]
      constructor
      · intro hcon
        exact absurd hcon (range_ne_none _ _)
      · intro hle
        exact absurd (List.isEmpty_iff.mpr (hwin.mpr hle)) he
  · intro hlt
    show (if (get_daily_blogs l t).isEmpty then "None"
        else toString ((cyclePos t).toNat * 5 + 1) ++ "-" ++
          toString (min (((cyclePos t).toNat + 1) * 5) l.length))
      = toString ((cyclePos t).toNat * 5 + 1) ++ "-" ++
          toString (min (((cyclePos t).toNat + 1) * 5) l.length)
    have hne : ¬ (get_daily_blogs l t).isEmpty = true := by
      intro he
      have := hwin.mp (List.isEmpty_iff.mp he)
      omega
    rw [if_neg hne]

theorem home_blogs_range_witness :
    ∃ r, home [Json.obj [("player_name", Json.str "P1")]] 0 = some r ∧
      (r.blogs_range = "None"
        ↔ [Json.obj [("player_name", Json.str "P1")]].length ≤ (cyclePos 0).toNat * 5) ∧
      (get_daily_blogs [Json.obj [("player_name", Json.str "P1")]] 0 = []
        ↔ [Json.obj [("player_name", Json.str "P1")]].length ≤ (cyclePos 0).toNat * 5) ∧
      ((cyclePos 0).toNat * 5 < [Json.obj [("player_name", Json.str "P1")]].length →
        r.blogs_range = toString ((cyclePos 0).toNat * 5 + 1) ++ "-" ++
          toString (min (((cyclePos 0).toNat + 1) * 5)
            [Json.obj [("player_name", Json.str "P1")]].length)) :=
  home_blogs_range [Json.obj [("player_name", Json.str "P1")]] 0
    (by
      intro b hb
      have hb2 : b ∈ [Json.obj [("player_name", Json.str "P1")]] := hb
      rcases List.mem_singleton.mp hb2 with rfl
      rfl)

end FantasyBlog
